import Mathlib

/-!
# Verification of the FxxkJobSearch pipeline

A shallow embedding, in Lean 4, of the core of the job-search pipeline:
the string normalization and dedup hash (src/utils.py), the SQLite record
store (src/database.py), the filter / analyze / generate batch stages
(src/filter.py, src/analyzer.py, src/builder.py), the scraper's insert loop
(src/scraper.py) and the bullet-matching engine (src/matcher.py).

External capabilities (the Gemini classifier and extractor, the Vertex AI
embedding model, the Jinja2/Tectonic renderer, wall-clock age checks) are
modelled as explicit oracle parameters: each Lean function takes the
outcome of the external call as an argument, exactly where the Python code
performs the call.  Pure local computation is translated directly.

String functions are modelled over the ASCII regime (Python's str.lower,
str.strip, and the regex classes \w and \s restricted to ASCII); every
concrete input used in a theorem below is ASCII, where the two semantics
coincide.
-/

set_option maxRecDepth 16000

namespace JobSearch

/-! ## String utilities (Python string/regex primitives) -/

/-- Python whitespace class (the characters stripped by str.strip and
matched by the regex class backslash-s, ASCII regime). -/
def isPySpace (c : Char) : Bool :=
  c = ' ' || c = '\t' || c = '\n' || c = '\x0d' || c = '\x0b' || c = '\x0c'

/-- Python word-character class (regex backslash-w, ASCII regime):
letters, digits and the underscore. -/
def isWordChar (c : Char) : Bool :=
  c.isAlphanum || c = '_'

/-- Python str.strip(): drop leading and trailing whitespace. -/
def pyStripList (l : List Char) : List Char :=
  ((l.dropWhile isPySpace).reverse.dropWhile isPySpace).reverse

/-- re.sub(r"[^\w\s]", "", .): remove every character that is neither a
word character nor whitespace. -/
def removePunct (l : List Char) : List Char :=
  l.filter (fun c => isWordChar c || isPySpace c)

/-- Helper for collapseWs: the flag records whether the previous character
belonged to a whitespace run already emitted as a single space. -/
def collapseWsGo : Bool → List Char → List Char
  | _, [] => []
  | prevSpace, c :: rest =>
    if isPySpace c then
      if prevSpace then collapseWsGo true rest
      else ' ' :: collapseWsGo true rest
    else c :: collapseWsGo false rest

/-- re.sub(r"\s+", " ", .): replace every maximal whitespace run by a
single space character. -/
def collapseWs (l : List Char) : List Char :=
  collapseWsGo false l

/-- Python str.lower() (ASCII regime). -/
def pyLower (s : String) : String :=
  String.mk (s.toList.map Char.toLower)

/-- utils._normalize: lowercase, strip, remove punctuation, collapse
whitespace runs — in exactly that order, as in the source. -/
def pyNormalize (s : String) : String :=
  String.mk (collapseWs (removePunct (pyStripList (pyLower s).toList)))

/-- Whether the list `pat` occurs at the head of the list. -/
def listStartsWith [DecidableEq α] : List α → List α → Bool
  | _, [] => true
  | [], _ :: _ => false
  | a :: as, b :: bs => a = b && listStartsWith as bs

/-- Whether `pat` occurs as a contiguous run somewhere in the list. -/
def listContainsSeq [DecidableEq α] (pat : List α) : List α → Bool
  | [] => pat.isEmpty
  | a :: rest => listStartsWith (a :: rest) pat || listContainsSeq pat rest

/-- Python substring containment: `pat in s`. -/
def strContains (s pat : String) : Bool :=
  listContainsSeq pat.toList s.toList

/-- Python str.strip(chars): drop the given characters from both ends.
Used for query_text.strip(": ") in the matcher. -/
def pyStripChars (s : String) (cs : List Char) : String :=
  String.mk (((s.toList.dropWhile (cs.contains ·)).reverse.dropWhile (cs.contains ·)).reverse)

/-! ## SHA-256 (hashlib.sha256, used by utils.compute_job_hash)

A direct executable implementation over byte lists, with 32-bit words
represented as natural numbers reduced mod 2^32. -/

namespace SHA256

def M32 : Nat := 4294967296

def add32 (a b : Nat) : Nat := (a + b) % M32

def rotr (n x : Nat) : Nat := ((x >>> n) ||| (x <<< (32 - n))) % M32

def bigSigma0 (x : Nat) : Nat := (rotr 2 x) ^^^ (rotr 13 x) ^^^ (rotr 22 x)
def bigSigma1 (x : Nat) : Nat := (rotr 6 x) ^^^ (rotr 11 x) ^^^ (rotr 25 x)
def smallSigma0 (x : Nat) : Nat := (rotr 7 x) ^^^ (rotr 18 x) ^^^ (x >>> 3)
def smallSigma1 (x : Nat) : Nat := (rotr 17 x) ^^^ (rotr 19 x) ^^^ (x >>> 10)

def chF (x y z : Nat) : Nat := (x &&& y) ^^^ ((x ^^^ 4294967295) &&& z)
def majF (x y z : Nat) : Nat := (x &&& y) ^^^ (x &&& z) ^^^ (y &&& z)

def K : List Nat :=
  [1116352408, 1899447441, 3049323471, 3921009573,
   961987163, 1508970993, 2453635748, 2870763221,
   3624381080, 310598401, 607225278, 1426881987,
   1925078388, 2162078206, 2614888103, 3248222580,
   3835390401, 4022224774, 264347078, 604807628,
   770255983, 1249150122, 1555081692, 1996064986,
   2554220882, 2821834349, 2952996808, 3210313671,
   3336571891, 3584528711, 113926993, 338241895,
   666307205, 773529912, 1294757372, 1396182291,
   1695183700, 1986661051, 2177026350, 2456956037,
   2730485921, 2820302411, 3259730800, 3345764771,
   3516065817, 3600352804, 4094571909, 275423344,
   430227734, 506948616, 659060556, 883997877,
   958139571, 1322822218, 1537002063, 1747873779,
   1955562222, 2024104815, 2227730452, 2361852424,
   2428436474, 2756734187, 3204031479, 3329325298]

/-- Big-endian byte expansion of `x` to `n` bytes. -/
def toBytesBE (n x : Nat) : List Nat :=
  (List.range n).map (fun i => (x >>> (8 * (n - 1 - i))) &&& 255)

/-- SHA-256 padding: append 0x80, zero bytes up to 56 mod 64, then the
bit length as 8 big-endian bytes. -/
def padMessage (msg : List Nat) : List Nat :=
  let L := msg.length
  let k := (119 - L % 64) % 64
  msg ++ [0x80] ++ List.replicate k 0 ++ toBytesBE 8 (8 * L)

def bytesToWords : List Nat → List Nat
  | b0 :: b1 :: b2 :: b3 :: rest =>
      ((b0 <<< 24) ||| (b1 <<< 16) ||| (b2 <<< 8) ||| b3) :: bytesToWords rest
  | _ => []

def wordsToBlocks : List Nat → List (List Nat)
  | w0 :: w1 :: w2 :: w3 :: w4 :: w5 :: w6 :: w7 ::
    w8 :: w9 :: w10 :: w11 :: w12 :: w13 :: w14 :: w15 :: rest =>
      [w0, w1, w2, w3, w4, w5, w6, w7, w8, w9, w10, w11, w12, w13, w14, w15]
        :: wordsToBlocks rest
  | _ => []

def nthD (l : List Nat) (i : Nat) : Nat := l.getD i 0

/-- Append the next word of the message schedule. -/
def schedStep (w : List Nat) : List Nat :=
  let i := w.length
  w ++ [add32 (add32 (smallSigma1 (nthD w (i - 2))) (nthD w (i - 7)))
              (add32 (smallSigma0 (nthD w (i - 15))) (nthD w (i - 16)))]

/-- Extend a 16-word block to the 64-word message schedule. -/
def schedule (block : List Nat) : List Nat :=
  (List.range 48).foldl (fun w _ => schedStep w) block

/-- The eight working registers of the compression function. -/
structure Regs where
  a : Nat
  b : Nat
  c : Nat
  d : Nat
  e : Nat
  f : Nat
  g : Nat
  h : Nat

def initRegs : Regs :=
  ⟨1779033703, 3144134277, 1013904242, 2773480762,
   1359893119, 2600822924, 528734635, 1541459225⟩

def roundStep (r : Regs) (ki wi : Nat) : Regs :=
  let t1 := add32 (add32 (add32 r.h (bigSigma1 r.e)) (add32 (chF r.e r.f r.g) ki)) wi
  let t2 := add32 (bigSigma0 r.a) (majF r.a r.b r.c)
  ⟨add32 t1 t2, r.a, r.b, r.c, add32 r.d t1, r.e, r.f, r.g⟩

def compressBlock (hs : Regs) (block : List Nat) : Regs :=
  let w := schedule block
  let r := (K.zip w).foldl (fun r kw => roundStep r kw.1 kw.2) hs
  ⟨add32 hs.a r.a, add32 hs.b r.b, add32 hs.c r.c, add32 hs.d r.d,
   add32 hs.e r.e, add32 hs.f r.f, add32 hs.g r.g, add32 hs.h r.h⟩

/-- The eight 32-bit words of the SHA-256 digest of a byte string. -/
def sha256Words (msg : List Nat) : List Nat :=
  let final := (wordsToBlocks (bytesToWords (padMessage msg))).foldl compressBlock initRegs
  [final.a, final.b, final.c, final.d, final.e, final.f, final.g, final.h]

def hexDigit (n : Nat) : Char :=
  if n < 10 then Char.ofNat (48 + n) else Char.ofNat (87 + n)

def wordHexChars (w : Nat) : List Char :=
  [hexDigit ((w >>> 28) &&& 15), hexDigit ((w >>> 24) &&& 15),
   hexDigit ((w >>> 20) &&& 15), hexDigit ((w >>> 16) &&& 15),
   hexDigit ((w >>> 12) &&& 15), hexDigit ((w >>> 8) &&& 15),
   hexDigit ((w >>> 4) &&& 15), hexDigit (w &&& 15)]

/-- hashlib.sha256(...).hexdigest(), as a list of 64 hex characters. -/
def sha256HexChars (msg : List Nat) : List Char :=
  ((sha256Words msg).map wordHexChars).flatten

end SHA256

/-- UTF-8 encoding of a single character (Python str.encode()). -/
def charUtf8 (c : Char) : List Nat :=
  let n := c.toNat
  if n < 0x80 then [n]
  else if n < 0x800 then [0xc0 ||| (n >>> 6), 0x80 ||| (n &&& 0x3f)]
  else if n < 0x10000 then
    [0xe0 ||| (n >>> 12), 0x80 ||| ((n >>> 6) &&& 0x3f), 0x80 ||| (n &&& 0x3f)]
  else
    [0xf0 ||| (n >>> 18), 0x80 ||| ((n >>> 12) &&& 0x3f),
     0x80 ||| ((n >>> 6) &&& 0x3f), 0x80 ||| (n &&& 0x3f)]

/-- Python s.encode(): UTF-8 bytes of a string. -/
def utf8Bytes (s : String) : List Nat :=
  (s.toList.map charUtf8).flatten

/-- utils.compute_job_hash: normalize company and title, join with a bar,
hash with SHA-256 and keep the first 16 hex characters. -/
def compute_job_hash (company title : String) : String :=
  let normalized := pyNormalize company ++ "|" ++ pyNormalize title
  String.mk ((SHA256.sha256HexChars (utf8Bytes normalized)).take 16)

/-! ## Data model (database.py)

The jobs table.  `relevance` is `Option Relevance` with `none` standing for
SQL NULL (a fresh insert sets neither relevance nor analysis).  `nextId`
models the AUTOINCREMENT primary-key counter. -/

inductive Status where
  | new | filtered | analyzed | generated | skipped
  deriving DecidableEq, Repr

inductive Relevance where
  | unscored | relevant | irrelevant
  deriving DecidableEq, Repr

/-- The extractor's parsed JSON object (analyzer.py output), with the
alias fields the matcher probes.  `none` models an absent key. -/
structure JdAnalysis where
  hard_skills : Option (List String)
  required_skills : Option (List String)
  skills : Option (List String)
  company_domain : Option String
  industry : Option String
  description_keywords : Option (List String)
  deriving DecidableEq, Repr

structure Job where
  id : Nat
  platform : String
  platform_id : String
  title : String
  company : String
  url : String
  content_hash : String
  jd_text : Option String
  posted_at : Option String
  relevance : Option Relevance
  analysis : Option JdAnalysis
  resume_path : Option String
  status : Status
  deriving DecidableEq, Repr

structure DB where
  jobs : List Job
  nextId : Nat
  deriving DecidableEq, Repr

def DB.empty : DB := ⟨[], 1⟩

/-- The payload of JobDatabase.insert_job. -/
structure JobData where
  platform : String
  platform_id : String
  title : String
  company : String
  url : String
  content_hash : String
  jd_text : String
  posted_at : Option String
  deriving DecidableEq, Repr

/-- JobDatabase.insert_job: the UNIQUE constraint on content_hash turns a
duplicate insert into an IntegrityError, caught and reported as False. -/
def insert_job (db : DB) (jd : JobData) : DB × Bool :=
  if db.jobs.any (fun j => j.content_hash = jd.content_hash) then (db, false)
  else
    (⟨db.jobs ++ [⟨db.nextId, jd.platform, jd.platform_id, jd.title, jd.company,
                   jd.url, jd.content_hash, some jd.jd_text, jd.posted_at,
                   none, none, none, Status.new⟩],
      db.nextId + 1⟩, true)

/-- JobDatabase.get_jobs_by_status (the ORDER BY created_at clause only
permutes the batch; each record is processed independently, so the stored
order is used). -/
def get_jobs_by_status (db : DB) (s : Status) : List Job :=
  db.jobs.filter (fun j => j.status = s)

def isUnscored (j : Job) : Bool :=
  j.relevance = none || j.relevance = some Relevance.unscored

/-- JobDatabase.get_unscored_jobs: relevance IS NULL OR relevance = 'unscored'. -/
def get_unscored_jobs (db : DB) : List Job :=
  db.jobs.filter isUnscored

/-- UPDATE jobs SET ... WHERE id = ?. -/
def updateWhere (db : DB) (id : Nat) (f : Job → Job) : DB :=
  ⟨db.jobs.map (fun j => if j.id = id then f j else j), db.nextId⟩

/-- The row change of update_job_relevance: set relevance, and set status
too when one is passed. -/
def relevanceUpdate (rel : Relevance) (st : Option Status) (j : Job) : Job :=
  { j with relevance := some rel, status := st.getD j.status }

/-- The row change of update_job_analysis: blob and status together. -/
def analysisUpdate (a : JdAnalysis) (j : Job) : Job :=
  { j with analysis := some a, status := Status.analyzed }

/-- The row change of update_job_jd. -/
def jdUpdate (jd : String) (j : Job) : Job :=
  { j with jd_text := some jd }

/-- The row change of update_job_resume: path and status together. -/
def resumeUpdate (path : String) (j : Job) : Job :=
  { j with resume_path := some path, status := Status.generated }

/-- JobDatabase.update_job_relevance (status argument optional, as in the
source). -/
def update_job_relevance (db : DB) (id : Nat) (rel : Relevance)
    (status : Option Status) : DB :=
  updateWhere db id (relevanceUpdate rel status)

/-- JobDatabase.update_job_analysis: stores the blob and advances the
status to 'analyzed' in one statement. -/
def update_job_analysis (db : DB) (id : Nat) (a : JdAnalysis) : DB :=
  updateWhere db id (analysisUpdate a)

def update_job_jd (db : DB) (id : Nat) (jd : String) : DB :=
  updateWhere db id (jdUpdate jd)

/-- JobDatabase.update_job_resume: stores the artifact path and advances
the status to 'generated'. -/
def update_job_resume (db : DB) (id : Nat) (path : String) : DB :=
  updateWhere db id (resumeUpdate path)

/-! ## Relevance filter (filter.py, config.py) -/

/-- config.TITLE_EXCLUDE_KEYWORDS. -/
def TITLE_EXCLUDE_KEYWORDS : List String :=
  ["senior", "staff", "lead", "principal", "head of",
   "manager", "director", "vp ", "vice president",
   "hr ", "human resource", "marketing", "sales",
   "finance", "accounting", "legal", "counsel",
   "customer service", "customer success",
   "ux design", "ui design", "graphic design",
   "content", "social media", "influencer",
   "phd", "postdoc"]

/-- config.TITLE_INCLUDE_KEYWORDS. -/
def TITLE_INCLUDE_KEYWORDS : List String :=
  ["intern", "internship", "student", "junior",
   "graduate", "entry", "trainee", "apprentice",
   "studiejob", "praktik"]

/-- filter._is_obvious_irrelevant. -/
def _is_obvious_irrelevant (title : String) : Bool :=
  TITLE_EXCLUDE_KEYWORDS.any (fun kw => strContains (pyLower title) kw)

/-- The classifier's parsed JSON verdict; `none` on a field models a
missing key (code reads it with dict.get and a default). -/
structure LlmVerdict where
  is_relevant : Option Bool
  reason : Option String
  deriving DecidableEq, Repr

/-- filter._check_relevance_with_llm: `outcome` is the external call's
result, `none` meaning the call or the JSON parse raised.  The fallback
branch is translated verbatim. -/
def _check_relevance_with_llm (outcome : Option LlmVerdict)
    (title _company : String) : Bool × String :=
  match outcome with
  | some v => (v.is_relevant.getD false, v.reason.getD "No reason provided")
  | none =>
    if strContains (pyLower title) "intern" || strContains (pyLower title) "student" then
      (true, "LLM failed, fallback to keyword")
    else
      (false, "LLM failed")

structure FilterCounts where
  relevant : Nat
  irrelevant : Nat
  too_old : Nat
  deriving DecidableEq, Repr

def zeroCounts : FilterCounts := ⟨0, 0, 0⟩

/-- One iteration of the filter loop.  `tooOld` is the oracle for
filter._is_too_old (it reads the wall clock). -/
def filterStep (tooOld : Job → Bool) (llm : Job → Option LlmVerdict)
    (acc : DB × FilterCounts) (job : Job) : DB × FilterCounts :=
  if tooOld job then
    (update_job_relevance acc.1 job.id Relevance.irrelevant (some Status.filtered),
     { acc.2 with too_old := acc.2.too_old + 1 })
  else if _is_obvious_irrelevant job.title then
    (update_job_relevance acc.1 job.id Relevance.irrelevant (some Status.filtered),
     { acc.2 with irrelevant := acc.2.irrelevant + 1 })
  else
    let res := _check_relevance_with_llm (llm job) job.title job.company
    if res.1 then
      (update_job_relevance acc.1 job.id Relevance.relevant none,
       { acc.2 with relevant := acc.2.relevant + 1 })
    else
      (update_job_relevance acc.1 job.id Relevance.irrelevant (some Status.filtered),
       { acc.2 with irrelevant := acc.2.irrelevant + 1 })

/-- filter.filter_jobs: empty-batch early return, client construction
(abort on failure), then the per-record loop over the snapshot. -/
def filter_jobs (tooOld : Job → Bool) (llm : Job → Option LlmVerdict)
    (initOk : Bool) (db : DB) : DB × FilterCounts :=
  let unscored := get_unscored_jobs db
  if unscored.isEmpty then (db, zeroCounts)
  else if !initOk then (db, zeroCounts)
  else unscored.foldl (filterStep tooOld llm) (db, zeroCounts)

/-! ## Requirement extractor (analyzer.py) -/

/-- analyzer.analyze_single_jd: the local minimum-length precondition is
translated directly; `outcome` is the external call plus defensive JSON
parse, `none` covering call failure, empty response, parse failure and a
non-object result. -/
def analyze_single_jd (outcome : Option JdAnalysis) (jd_text : Option String) :
    Option JdAnalysis :=
  let t := jd_text.getD ""
  if t = "" || (pyStripList t.toList).length < 50 then none
  else outcome

/-- analyzer.analyze_pending_jobs: select status='new' records tagged
relevant, abort if the client cannot be constructed, then analyze each
record, committing only successes. -/
def analyze_pending_jobs (anOracle : Job → Option JdAnalysis) (initOk : Bool)
    (db : DB) : DB × Nat :=
  let all_new := get_jobs_by_status db Status.new
  let pending := all_new.filter (fun j => j.relevance = some Relevance.relevant)
  if pending.isEmpty then (db, 0)
  else if !initOk then (db, 0)
  else
    pending.foldl (fun acc job =>
      match analyze_single_jd (anOracle job) job.jd_text with
      | some a => (update_job_analysis acc.1 job.id a, acc.2 + 1)
      | none => acc) (db, 0)

/-! ## Resume generation (builder.py) -/

/-- The output artifact name built in builder.generate_single_resume. -/
def output_path_name (job : Job) : String :=
  String.map (fun c => if c = ' ' then '_' else if c = '/' then '-' else c)
    (toString job.id ++ "_" ++ job.company.take 20 ++ "_" ++ job.title.take 30)
    ++ ".pdf"

/-- builder.generate_single_resume.  `renderOk` is the Jinja2 render
outcome, `compileOk` the Tectonic outcome.  The client is used only to
rewrite bullet text inside the artifact (rewrite_bullet falls back to the
original text on any failure), so success does not depend on it. -/
def generate_single_resume (renderOk compileOk : Bool) (job : Job)
    (_client : Option Unit) : Option String :=
  if renderOk then
    if compileOk then some (output_path_name job) else none
  else none

/-- builder.generate_resumes: on client-construction failure the stage
logs a warning, sets client to None and KEEPS GOING (unlike filter and
analyze, which abort). -/
def generate_resumes (renderOk compileOk : Job → Bool) (initOk : Bool)
    (db : DB) : DB × Nat :=
  let analyzed_jobs := get_jobs_by_status db Status.analyzed
  if analyzed_jobs.isEmpty then (db, 0)
  else
    let client : Option Unit := if initOk then some () else none
    analyzed_jobs.foldl (fun acc job =>
      match generate_single_resume (renderOk job) (compileOk job) job client with
      | some path => (update_job_resume acc.1 job.id path, acc.2 + 1)
      | none => acc) (db, 0)

/-! ## Scraping and backfill (scraper.py) -/

/-- One row of the scraper ingest loop: skip rows with an empty title or
company, insert the rest, count fresh inserts. -/
def scrapeInsert (acc : DB × Nat) (jd : JobData) : DB × Nat :=
  if jd.title = "" || jd.company = "" then acc
  else
    let r := insert_job acc.1 jd
    if r.2 then (r.1, acc.2 + 1) else (r.1, acc.2)

/-- The scraper stage: the rows produced by the external boards (after the
platform adapters' field extraction) are the oracle input. -/
def scrape_batch (incoming : List JobData) (db : DB) : DB × Nat :=
  incoming.foldl scrapeInsert (db, 0)

/-- scraper.backfill_linkedin_jd: select LinkedIn rows with NULL or short
jd_text and status != 'filtered'; `fetch` is the page-fetch-and-extract
oracle (`none` for a failed request, `some` the extracted text). -/
def backfill_linkedin_jd (fetch : Job → Option String) (db : DB) : DB × Nat :=
  let short := db.jobs.filter (fun j =>
    j.platform = "linkedin"
      && (match j.jd_text with
          | none => true
          | some t => t.length < 100)
      && j.status ≠ Status.filtered)
  short.foldl (fun acc job =>
    if job.url = "" || !strContains job.url "linkedin.com" then acc
    else
      match fetch job with
      | some jd => if jd ≠ "" && jd.length > 100 then (update_job_jd acc.1 job.id jd, acc.2 + 1) else acc
      | none => acc) (db, 0)

/-! ## Pipeline operations (main.py verbs) -/

/-- One pipeline stage invocation, carrying the outcomes of its external
calls as oracle data. -/
inductive Op where
  | scrape (incoming : List JobData)
  | filter (tooOld : Job → Bool) (llm : Job → Option LlmVerdict) (initOk : Bool)
  | backfill (fetch : Job → Option String)
  | analyze (anOracle : Job → Option JdAnalysis) (initOk : Bool)
  | generate (renderOk compileOk : Job → Bool) (initOk : Bool)

def applyOp (db : DB) : Op → DB
  | Op.scrape incoming => (scrape_batch incoming db).1
  | Op.filter tooOld llm initOk => (filter_jobs tooOld llm initOk db).1
  | Op.backfill fetch => (backfill_linkedin_jd fetch db).1
  | Op.analyze o i => (analyze_pending_jobs o i db).1
  | Op.generate r c i => (generate_resumes r c i db).1

def runOps (ops : List Op) (db : DB) : DB := ops.foldl applyOp db

/-! ## Matching engine (matcher.py) -/

/-- One profile bullet as produced by matcher.load_profile_bullets. -/
structure Bullet where
  text : String
  source : String
  role : String
  category : String
  deriving DecidableEq, Repr

/-- A result entry of match_bullets_to_jd: the bullet dict, which carries
a "similarity" key only on the scored path. -/
structure ScoredBullet where
  bullet : Bullet
  similarity : Option ℚ
  deriving DecidableEq, Repr

/-- Python `x or y` on an optional list value (None and the empty list
are falsy). -/
def orListFalsy (x : Option (List String)) (y : List String) : List String :=
  match x with
  | some l => if l.isEmpty then y else l
  | none => y

/-- The hard-skill alias chain of match_bullets_to_jd:
hard_skills or required_skills or skills or []. -/
def resolve_hard_skills (a : JdAnalysis) : List String :=
  orListFalsy a.hard_skills (orListFalsy a.required_skills (orListFalsy a.skills []))

/-- The domain alias chain of match_bullets_to_jd:
company_domain or industry or description_keywords-with-default-singleton
indexed at 0, or "".  Indexing a present but empty description_keywords
list raises IndexError, modelled as the error case. -/
def resolve_domain (a : JdAnalysis) : Except String String :=
  let c := a.company_domain.getD ""
  if c ≠ "" then Except.ok c
  else
    let i := a.industry.getD ""
    if i ≠ "" then Except.ok i
    else
      match a.description_keywords.getD [""] with
      | [] => Except.error "IndexError: description_keywords is empty"
      | x :: _ => Except.ok x

/-- Similarity of bullet `i` (NumPy out-of-range reads cannot happen on
the indices argsort produces; 0 is a dummy default). -/
def simVal (sims : List ℚ) (i : Nat) : ℚ := sims.getD i 0

/-- Stable ascending insertion of index `i` into an index list sorted by
similarity: on ties the incoming (higher) index goes after the existing
ones, as in NumPy's stable regime. -/
def insertAsc (sims : List ℚ) (i : Nat) : List Nat → List Nat
  | [] => [i]
  | j :: rest =>
    if simVal sims i < simVal sims j then i :: j :: rest
    else j :: insertAsc sims i rest

/-- np.argsort(similarities): an index permutation that puts the values
in ascending order.  NumPy guarantees the ascending value order at every
size, but for the default kind the order WITHIN a group of equal values
is implementation-defined (stable only in the small-array insertion-sort
regime, not at the ~100-element profiles this repository allows).  The
model fixes one concrete resolution — the stable tie order.  General
theorems about the matcher therefore use only consequences that hold for
EVERY tie-order resolution (value order, length, membership); the single
tie-order-sensitive fact proved below is evaluated on a two-element
array, where NumPy's sort really is an insertion sort and the model is
exact. -/
def argsortAsc (sims : List ℚ) : List Nat :=
  (List.range sims.length).foldl (fun acc i => insertAsc sims i acc) []

/-- config.TOP_N_BULLETS. -/
def TOP_N_BULLETS : Nat := 6

/-- The query text match_bullets_to_jd builds: the domain, a colon, and
the comma-joined skill list with each skill capped at 50 characters. -/
def queryTextOf (hard_skills : List String) (domain : String) : String :=
  domain ++ ": "
    ++ String.intercalate ", "
        (hard_skills.map (fun s => if s.length < 50 then s else s.take 50))

/-- matcher.match_bullets_to_jd.  `embedSim` is the oracle composing the
external embedding call with the local cosine computation: the similarity
is a deterministic function of the bullet text and the query text.
The result models the rows of the returned list; the error case models
the IndexError raised by the final summary log (it reads results[-1]) and
by the domain resolution. -/
def match_bullets_to_jd (embedSim : String → String → ℚ)
    (bullets : List Bullet) (jd : JdAnalysis) (top_n : Option Nat) :
    Except String (List ScoredBullet) :=
  let topN := match top_n with
    | some n => if n = 0 then TOP_N_BULLETS else n
    | none => TOP_N_BULLETS
  let hard_skills := resolve_hard_skills jd
  match resolve_domain jd with
  | Except.error e => Except.error e
  | Except.ok domain =>
    let query_text := queryTextOf hard_skills domain
    if pyStripChars query_text [':', ' '] = "" then
      Except.ok ((bullets.take topN).map (fun b => ⟨b, none⟩))
    else
      let sims := bullets.map (fun b => embedSim b.text query_text)
      let ranked := (argsortAsc sims).reverse.take topN
      let results := ranked.map (fun idx =>
        (⟨bullets.getD idx ⟨"", "", "", ""⟩, some (simVal sims idx)⟩ : ScoredBullet))
      match results.getLast? with
      | none => Except.error "IndexError: results is empty"
      | some _ => Except.ok results

/-! ## Stage decomposition

Each batch stage computes its per-record decision from the snapshot row
(and the oracles) alone, so a stage run equals a single map over the
stored rows: every row is rewritten by the chain of updates whose target
id matches it.  The lemmas here establish that decomposition. -/

/-- One keyed update as seen by a single row. -/
def applyStep (t : Job → Job → Job) (x : Job) (sj : Job) : Job :=
  if x.id = sj.id then t sj x else x

/-- The effect of a whole stage's update sequence on a single row. -/
def applyChain (t : Job → Job → Job) (snap : List Job) (j : Job) : Job :=
  snap.foldl (applyStep t) j

/-- The filter stage's row transform for snapshot row `sj`. -/
def tFilter (tooOld : Job → Bool) (llm : Job → Option LlmVerdict)
    (sj : Job) : Job → Job :=
  if tooOld sj then relevanceUpdate Relevance.irrelevant (some Status.filtered)
  else if _is_obvious_irrelevant sj.title then
    relevanceUpdate Relevance.irrelevant (some Status.filtered)
  else if (_check_relevance_with_llm (llm sj) sj.title sj.company).1 then
    relevanceUpdate Relevance.relevant none
  else relevanceUpdate Relevance.irrelevant (some Status.filtered)

/-- The analyze stage's row transform (identity when analysis fails). -/
def tAnalyze (o : Job → Option JdAnalysis) (sj : Job) : Job → Job :=
  match analyze_single_jd (o sj) sj.jd_text with
  | some a => analysisUpdate a
  | none => fun j => j

/-- The generate stage's row transform (identity when rendering fails). -/
def tGenerate (renderOk compileOk : Job → Bool) (client : Option Unit)
    (sj : Job) : Job → Job :=
  match generate_single_resume (renderOk sj) (compileOk sj) sj client with
  | some path => resumeUpdate path
  | none => fun j => j

/-- The backfill stage's row transform. -/
def tBackfill (fetch : Job → Option String) (sj : Job) : Job → Job :=
  if sj.url = "" || !strContains sj.url "linkedin.com" then fun j => j
  else
    match fetch sj with
    | some jd => if jd ≠ "" && jd.length > 100 then jdUpdate jd else fun j => j
    | none => fun j => j

/-- The selection predicate of backfill_linkedin_jd. -/
def isShortLinkedIn (j : Job) : Bool :=
  j.platform = "linkedin"
    && (match j.jd_text with
        | none => true
        | some t => t.length < 100)
    && j.status ≠ Status.filtered

/-! ## Shared concrete fixtures -/

/-- A default row used as getD fallback (its status rank is the minimum). -/
def dummyJob : Job :=
  ⟨0, "", "", "", "", "", "", none, none, none, none, none, Status.new⟩

/-- An extractor result with every alias field absent. -/
def emptyAnalysis : JdAnalysis := ⟨none, none, none, none, none, none⟩

/-- The normalization as the claim words it: lowercase, remove
punctuation, collapse whitespace runs — WITHOUT the strip step the code
performs between lowercasing and punctuation removal. -/
def claimNormalize (s : String) : String :=
  String.mk (collapseWs (removePunct (pyLower s).toList))

/-- A store holding exactly one analyzed, relevant posting. -/
def dbC4 : DB :=
  ⟨[⟨1, "thehub", "p", "AI Intern", "Acme", "u", "h", some "jd", none,
     some Relevance.relevant, some emptyAnalysis, none, Status.analyzed⟩], 2⟩

/-- Decidable equality for Except results, so concrete runs of the
matcher can be evaluated in witnesses. -/
instance exceptDecEq {ε α : Type} [DecidableEq ε] [DecidableEq α] :
    DecidableEq (Except ε α) := fun x y =>
  match x, y with
  | Except.ok a, Except.ok b =>
    if h : a = b then isTrue (by rw [h])
    else isFalse (fun he => h (Except.ok.inj he))
  | Except.error a, Except.error b =>
    if h : a = b then isTrue (by rw [h])
    else isFalse (fun he => h (Except.error.inj he))
  | Except.ok _, Except.error _ => isFalse (fun he => Except.noConfusion he)
  | Except.error _, Except.ok _ => isFalse (fun he => Except.noConfusion he)

/-- The strict lexicographic order (similarity, then original index) that
the stable ascending argsort realises. -/
def ltLex (sims : List ℚ) (i j : Nat) : Prop :=
  simVal sims i < simVal sims j ∨ (simVal sims i = simVal sims j ∧ i < j)

/-- Two concrete distinct profile bullets. -/
def bW1 : Bullet :=
  ⟨"Developed FastAPI backend services", "Acme", "Engineer", "experience"⟩

def bW2 : Bullet :=
  ⟨"Analysed data with Pandas", "Uni", "Student", "project"⟩

/-- A requirement record with one skill and a domain (non-empty query). -/
def jdC3 : JdAnalysis :=
  ⟨some ["Python"], none, none, some "software", none, none⟩

/-- A store holding one new, relevant posting whose description is below
the extractor's minimum length. -/
def dbC1 : DB :=
  ⟨[⟨1, "linkedin", "p", "AI Intern", "Acme", "u", "h1", some "too short", none,
     some Relevance.relevant, none, none, Status.new⟩], 2⟩

/-- The forward order of the status lifecycle: new strictly before the
intermediate/terminal states, generated strictly after them. -/
def statusRank : Status → Nat
  | Status.new => 0
  | Status.filtered => 1
  | Status.analyzed => 1
  | Status.skipped => 1
  | Status.generated => 2

/-- The reachable-store invariant: ids are unique and below the
autoincrement counter, and analyzed/generated rows are tagged relevant. -/
def Inv (db : DB) : Prop :=
  (db.jobs.map Job.id).Nodup
    ∧ (∀ j ∈ db.jobs, j.id < db.nextId)
    ∧ (∀ j ∈ db.jobs, (j.status = Status.analyzed ∨ j.status = Status.generated) →
        j.relevance = some Relevance.relevant)

/-- Row-wise status monotonicity between two stores (rows are only
appended, never removed or reordered, so positions identify postings). -/
def Mono (db db2 : DB) : Prop :=
  db.jobs.length ≤ db2.jobs.length
    ∧ ∀ i : Nat, statusRank ((db.jobs.getD i dummyJob).status)
        ≤ statusRank ((db2.jobs.getD i dummyJob).status)

/-! ## Lemmas and theorems -/

/-- SHA-256 test vector: the empty message. -/
lemma sha256_empty_vector :
    String.mk (SHA256.sha256HexChars []) =
      "e3b0c44298fc1c149afbf4c8996fb92427ae41e4649b934ca495991b7852b855" := by decide

/-- SHA-256 test vector: "abc". -/
lemma sha256_abc_vector :
    String.mk (SHA256.sha256HexChars (utf8Bytes "abc")) =
      "ba7816bf8f01cfea414140de5dae2223b00361a396177a9cb410ff61f20015ad" := by decide

lemma updateWhere_self_id (db : DB) (i : Nat) :
    updateWhere db i (fun j => j) = db := by
  cases db with
  | mk jobs nextId =>
    simp only [updateWhere, ite_self, List.map_id', DB.mk.injEq, and_true]

lemma foldl_fst {α C : Type} (step : (DB × C) → α → (DB × C))
    (stepDb : DB → α → DB)
    (hstep : ∀ acc job, (step acc job).1 = stepDb acc.1 job) :
    ∀ (l : List α) (acc : DB × C), (l.foldl step acc).1 = l.foldl stepDb acc.1 := by
  intro l
  induction l with
  | nil => intro acc; rfl
  | cons a l ih =>
    intro acc
    rw [List.foldl_cons, List.foldl_cons, ih, hstep]

lemma foldl_updateWhere (t : Job → Job → Job) :
    ∀ (snap : List Job) (db : DB),
      snap.foldl (fun d sj => updateWhere d sj.id (t sj)) db
        = ⟨db.jobs.map (applyChain t snap), db.nextId⟩ := by
  intro snap
  induction snap with
  | nil =>
    intro db
    cases db with
    | mk jobs nextId =>
      rw [show List.map (applyChain t []) jobs = List.map (fun j => j) jobs from rfl,
          List.map_id']
      rfl
  | cons a snap ih =>
    intro db
    rw [List.foldl_cons, ih]
    show (⟨(db.jobs.map fun j => if j.id = a.id then t a j else j).map
            (applyChain t snap), db.nextId⟩ : DB) = _
    rw [List.map_map]
    rfl

lemma applyChain_not_mem (t : Job → Job → Job) :
    ∀ (snap : List Job) (j : Job), (∀ sj ∈ snap, sj.id ≠ j.id) →
      applyChain t snap j = j := by
  intro snap
  induction snap with
  | nil => intro j _; rfl
  | cons a snap ih =>
    intro j h
    have ha : j.id ≠ a.id := fun e => h a (List.mem_cons_self a snap) e.symm
    show applyChain t snap (applyStep t j a) = j
    rw [applyStep, if_neg ha]
    exact ih j (fun sj hs => h sj (List.mem_cons_of_mem a hs))

lemma applyChain_keeps (t : Job → Job → Job) (P : Job → Prop)
    (hkeep : ∀ sj x, P x → P (t sj x)) :
    ∀ (snap : List Job) (j : Job), P j → P (applyChain t snap j) := by
  intro snap
  induction snap with
  | nil => intro j h; exact h
  | cons a snap ih =>
    intro j h
    show P (applyChain t snap (applyStep t j a))
    apply ih
    rw [applyStep]
    by_cases hid : j.id = a.id
    · rw [if_pos hid]; exact hkeep a j h
    · rw [if_neg hid]; exact h

lemma applyChain_establishes (t : Job → Job → Job) (P : Job → Prop)
    (hset : ∀ sj x, P (t sj x)) :
    ∀ (snap : List Job) (j : Job), (∃ sj ∈ snap, sj.id = j.id) →
      P (applyChain t snap j) := by
  intro snap
  induction snap with
  | nil => rintro j ⟨sj, hm, _⟩; exact absurd hm (List.not_mem_nil sj)
  | cons a snap ih =>
    rintro j ⟨sj, hm, hid⟩
    show P (applyChain t snap (applyStep t j a))
    by_cases hja : j.id = a.id
    · rw [applyStep, if_pos hja]
      exact applyChain_keeps t P (fun s x _ => hset s x) snap _ (hset a j)
    · rw [applyStep, if_neg hja]
      rcases List.mem_cons.mp hm with rfl | hm2
      · exact absurd hid.symm hja
      · exact ih j ⟨sj, hm2, hid⟩

lemma applyChain_single (t : Job → Job → Job)
    (hpres : ∀ sj x, (t sj x).id = x.id) :
    ∀ (snap : List Job), (snap.map Job.id).Nodup →
      ∀ (j sj : Job), sj ∈ snap → sj.id = j.id →
        applyChain t snap j = t sj j := by
  intro snap
  induction snap with
  | nil => intro _ j sj hm; exact absurd hm (List.not_mem_nil sj)
  | cons a snap ih =>
    intro hnd j sj hm hid
    have hnd2 : (snap.map Job.id).Nodup := (List.nodup_cons.mp hnd).2
    have hnotmem : a.id ∉ snap.map Job.id := (List.nodup_cons.mp hnd).1
    show applyChain t snap (applyStep t j a) = t sj j
    rcases List.mem_cons.mp hm with rfl | hm2
    · rw [applyStep, if_pos hid.symm]
      apply applyChain_not_mem
      intro s hs he
      apply hnotmem
      have hss : s.id = sj.id := by rw [he, hpres sj j, ← hid]
      rw [← hss]
      exact List.mem_map_of_mem Job.id hs
    · have hja : j.id ≠ a.id := by
        intro e
        apply hnotmem
        rw [← e, ← hid]
        exact List.mem_map_of_mem Job.id hm2
      rw [applyStep, if_neg hja]
      exact ih hnd2 j sj hm2 hid

lemma map_applyChain_nil (t : Job → Job → Job) (db : DB) :
    (⟨db.jobs.map (applyChain t []), db.nextId⟩ : DB) = db := by
  cases db with
  | mk jobs nextId =>
    rw [show List.map (applyChain t []) jobs = List.map (fun j => j) jobs from rfl,
        List.map_id']

lemma filterStep_fst (tooOld : Job → Bool) (llm : Job → Option LlmVerdict)
    (acc : DB × FilterCounts) (job : Job) :
    (filterStep tooOld llm acc job).1
      = updateWhere acc.1 job.id (tFilter tooOld llm job) := by
  unfold filterStep tFilter update_job_relevance
  dsimp only
  split_ifs <;> rfl

/-- A filter run with a working client is one map over the stored rows. -/
lemma filter_jobs_db (tooOld : Job → Bool) (llm : Job → Option LlmVerdict)
    (db : DB) :
    (filter_jobs tooOld llm true db).1
      = ⟨db.jobs.map (applyChain (tFilter tooOld llm) (get_unscored_jobs db)),
          db.nextId⟩ := by
  dsimp only [filter_jobs]
  by_cases h : (get_unscored_jobs db).isEmpty
  · rw [if_pos h, List.isEmpty_iff.mp h, map_applyChain_nil]
  · rw [if_neg h]
    show ((get_unscored_jobs db).foldl (filterStep tooOld llm) (db, zeroCounts)).1 = _
    rw [foldl_fst (filterStep tooOld llm)
          (fun d sj => updateWhere d sj.id (tFilter tooOld llm sj))
          (filterStep_fst tooOld llm) (get_unscored_jobs db) (db, zeroCounts),
        foldl_updateWhere]

/-- Claim C4 ingredient: a filter run whose client construction failed
returns zero counts and leaves the store untouched. -/
lemma filter_jobs_init_fail (tooOld : Job → Bool) (llm : Job → Option LlmVerdict)
    (db : DB) :
    filter_jobs tooOld llm false db = (db, zeroCounts) := by
  dsimp only [filter_jobs]
  split_ifs with h1 h2
  · rfl
  · rfl
  · exact absurd rfl h2

lemma analyze_pending_jobs_db (o : Job → Option JdAnalysis) (db : DB) :
    (analyze_pending_jobs o true db).1
      = ⟨db.jobs.map (applyChain (tAnalyze o)
          ((get_jobs_by_status db Status.new).filter
            (fun j => j.relevance = some Relevance.relevant))), db.nextId⟩ := by
  dsimp only [analyze_pending_jobs]
  by_cases h : ((get_jobs_by_status db Status.new).filter
      (fun j => j.relevance = some Relevance.relevant)).isEmpty
  · rw [if_pos h, List.isEmpty_iff.mp h, map_applyChain_nil]
  · rw [if_neg h]
    show (List.foldl _ (db, 0) _).1 = _
    rw [foldl_fst _ (fun d sj => updateWhere d sj.id (tAnalyze o sj))
          (fun acc job => by
            dsimp only
            cases hx : analyze_single_jd (o job) job.jd_text with
            | some a => simp [hx, tAnalyze, update_job_analysis]
            | none => simp [hx, tAnalyze, updateWhere_self_id]),
        foldl_updateWhere]

lemma analyze_pending_jobs_init_fail (o : Job → Option JdAnalysis) (db : DB) :
    analyze_pending_jobs o false db = (db, 0) := by
  dsimp only [analyze_pending_jobs]
  split_ifs with h1 h2
  · rfl
  · rfl
  · exact absurd rfl h2

lemma generate_resumes_db (renderOk compileOk : Job → Bool) (initOk : Bool)
    (db : DB) :
    (generate_resumes renderOk compileOk initOk db).1
      = ⟨db.jobs.map (applyChain
            (tGenerate renderOk compileOk (if initOk then some () else none))
            (get_jobs_by_status db Status.analyzed)), db.nextId⟩ := by
  dsimp only [generate_resumes]
  by_cases h : (get_jobs_by_status db Status.analyzed).isEmpty
  · rw [if_pos h, List.isEmpty_iff.mp h, map_applyChain_nil]
  · rw [if_neg h]
    show (List.foldl _ (db, 0) _).1 = _
    rw [foldl_fst _
          (fun d sj => updateWhere d sj.id
            (tGenerate renderOk compileOk (if initOk then some () else none) sj))
          (fun acc job => by
            dsimp only
            cases hx : generate_single_resume (renderOk job) (compileOk job) job
                (if initOk then some () else none) with
            | some p => simp [hx, tGenerate, update_job_resume]
            | none => simp [hx, tGenerate, updateWhere_self_id]),
        foldl_updateWhere]

lemma backfill_linkedin_jd_db (fetch : Job → Option String) (db : DB) :
    (backfill_linkedin_jd fetch db).1
      = ⟨db.jobs.map (applyChain (tBackfill fetch)
            (db.jobs.filter isShortLinkedIn)), db.nextId⟩ := by
  dsimp only [backfill_linkedin_jd, isShortLinkedIn]
  show (List.foldl _ (db, 0) _).1 = _
  rw [foldl_fst _ (fun d sj => updateWhere d sj.id (tBackfill fetch sj))
        (fun acc job => by
          dsimp only [tBackfill]
          split_ifs with h1
          · rw [updateWhere_self_id]
          · cases hx : fetch job with
            | some jd =>
              simp only [hx]
              split_ifs with h2
              · rfl
              · rw [updateWhere_self_id]
            | none => simp only [hx]; rw [updateWhere_self_id]),
      foldl_updateWhere]
  rfl

/-! ## Claim C7 — duplicate insertion is a no-op -/

/-- C7: inserting a posting whose content hash already exists leaves the
store unchanged and returns the failure flag; the IntegrityError is
absorbed inside insert_job, so no exception escapes to the batch. -/
theorem insert_job_duplicate_noop (db : DB) (jd : JobData)
    (h : ∃ j ∈ db.jobs, j.content_hash = jd.content_hash) :
    insert_job db jd = (db, false) := by
  unfold insert_job
  rw [if_pos]
  rcases h with ⟨j, hm, he⟩
  exact List.any_eq_true.mpr ⟨j, hm, decide_eq_true he⟩

/-- Witness for C7 at a concrete store and payload. -/
theorem insert_job_duplicate_noop_witness :
    (∃ j ∈ (⟨[⟨1, "thehub", "p1", "AI Intern", "Acme", "u1", "hash1", some "",
        none, none, none, none, Status.new⟩], 2⟩ : DB).jobs,
        j.content_hash = "hash1")
    ∧ insert_job
        ⟨[⟨1, "thehub", "p1", "AI Intern", "Acme", "u1", "hash1", some "",
           none, none, none, none, Status.new⟩], 2⟩
        ⟨"linkedin", "p2", "AI Intern", "Acme Inc.", "u2", "hash1", "jd", none⟩
      = (⟨[⟨1, "thehub", "p1", "AI Intern", "Acme", "u1", "hash1", some "",
           none, none, none, none, Status.new⟩], 2⟩, false) :=
  ⟨by decide, insert_job_duplicate_noop _ _ (by decide)⟩

/-! ## Claim C8 — classifier-failure fallback -/

/-- C8 counterexample: when the classifier call fails on the title
"Junior Developer", the fallback rejects it although the title contains
the configured inclusion-vocabulary term "junior"; acceptance is NOT
equivalent to containing an inclusion keyword. -/
theorem llm_fallback_claim_counterexample :
    ¬ ((_check_relevance_with_llm none "Junior Developer" "Acme").1 = true
        ↔ TITLE_INCLUDE_KEYWORDS.any
            (fun kw => strContains (pyLower "Junior Developer") kw) = true) := by
  decide

/-- C8 amended: on classifier failure the fallback accepts exactly the
titles containing "intern" or "student" (case-insensitively) — a fixed
two-term subset of the inclusion vocabulary, not the whole configured
list — and the recorded reason identifies the fallback. -/
theorem llm_fallback_spec (title company : String) :
    ((_check_relevance_with_llm none title company).1 = true
      ↔ (strContains (pyLower title) "intern" = true
          ∨ strContains (pyLower title) "student" = true))
    ∧ ((_check_relevance_with_llm none title company).1 = true →
        (_check_relevance_with_llm none title company).2
          = "LLM failed, fallback to keyword")
    ∧ ((_check_relevance_with_llm none title company).1 = false →
        (_check_relevance_with_llm none title company).2 = "LLM failed") := by
  unfold _check_relevance_with_llm
  by_cases h : (strContains (pyLower title) "intern"
      || strContains (pyLower title) "student") = true
  · rw [if_pos h]
    refine ⟨Iff.intro (fun _ => ?_) (fun _ => rfl), fun _ => rfl,
      fun hf => Bool.noConfusion hf⟩
    rcases Bool.or_eq_true_iff.mp h with h1 | h1
    · exact Or.inl h1
    · exact Or.inr h1
  · rw [if_neg h]
    refine ⟨Iff.intro (fun hf => Bool.noConfusion hf) (fun hc => ?_),
      fun hf => Bool.noConfusion hf, fun _ => rfl⟩
    exact absurd (Bool.or_eq_true_iff.mpr hc) h

/-! ## Claim C6 — dedup hash -/

/-- C6 counterexample: ". a" and " a" agree after lowercasing, removing
punctuation and collapsing whitespace (both become " a"), yet their
hashes differ, because the code strips BEFORE removing punctuation and a
punctuation character shields the leading space of ". a" from the strip. -/
theorem compute_job_hash_claim_counterexample :
    claimNormalize ". a" = claimNormalize " a"
      ∧ compute_job_hash ". a" "t" ≠ compute_job_hash " a" "t" := by
  constructor
  · decide
  · decide

lemma sha256HexChars_length (msg : List Nat) :
    (SHA256.sha256HexChars msg).length = 64 := by
  unfold SHA256.sha256HexChars SHA256.sha256Words
  simp [SHA256.wordHexChars]

/-- C6 amended: two (company, title) pairs that agree under the code's
normalization (lowercase, strip, remove punctuation, collapse whitespace)
receive the same hash, and the hash is always a fixed-length 16-character
identifier. -/
theorem compute_job_hash_spec (c1 t1 c2 t2 : String)
    (hc : pyNormalize c1 = pyNormalize c2)
    (ht : pyNormalize t1 = pyNormalize t2) :
    compute_job_hash c1 t1 = compute_job_hash c2 t2
      ∧ (compute_job_hash c1 t1).length = 16 := by
  constructor
  · unfold compute_job_hash
    rw [hc, ht]
  · show (String.mk _).length = 16
    have h := sha256HexChars_length
      (utf8Bytes (pyNormalize c1 ++ "|" ++ pyNormalize t1))
    simp [String.length, List.length_take, h]

/-- Witness for C6 at a concrete normalized-equal pair. -/
theorem compute_job_hash_spec_witness :
    pyNormalize "Acme Inc." = pyNormalize "acme inc"
      ∧ pyNormalize "Software Engineer" = pyNormalize "software   engineer"
      ∧ (compute_job_hash "Acme Inc." "Software Engineer"
            = compute_job_hash "acme inc" "software   engineer"
        ∧ (compute_job_hash "Acme Inc." "Software Engineer").length = 16) :=
  ⟨by decide, by decide, compute_job_hash_spec _ _ _ _ (by decide) (by decide)⟩

/-! ## Claim C4 — client-construction failure at stage start -/

/-- C4 counterexample: with one analyzed record, a failed client
construction and a successful render, the generate stage reports progress
1 and modifies the store — it does not abort with zero progress as the
claim asserts for every stage. -/
theorem generate_init_fail_not_noop :
    (generate_resumes (fun _ => true) (fun _ => true) false dbC4).2 = 1
      ∧ (generate_resumes (fun _ => true) (fun _ => true) false dbC4).1 ≠ dbC4 := by
  constructor
  · decide
  · decide

/-- C4 amended: the filter and analyze stages do abort on client
construction failure, returning zero progress and an untouched store; the
generate stage instead logs, drops the rewrite client and continues (see
the counterexample). -/
theorem stage_init_fail_aborts (tooOld : Job → Bool)
    (llm : Job → Option LlmVerdict) (o : Job → Option JdAnalysis) (db : DB) :
    filter_jobs tooOld llm false db = (db, zeroCounts)
      ∧ analyze_pending_jobs o false db = (db, 0) :=
  ⟨filter_jobs_init_fail tooOld llm db, analyze_pending_jobs_init_fail o db⟩

/-! ## Matching-engine lemmas -/

lemma insertAsc_length (sims : List ℚ) (i : Nat) :
    ∀ l : List Nat, (insertAsc sims i l).length = l.length + 1 := by
  intro l
  induction l with
  | nil => rfl
  | cons j rest ih =>
    unfold insertAsc
    split_ifs
    · rfl
    · simp only [List.length_cons, ih]

lemma insertAsc_mem (sims : List ℚ) (i : Nat) :
    ∀ (l : List Nat) (x : Nat), x ∈ insertAsc sims i l ↔ x = i ∨ x ∈ l := by
  intro l
  induction l with
  | nil => intro x; simp [insertAsc]
  | cons j rest ih =>
    intro x
    unfold insertAsc
    split_ifs
    · simp [List.mem_cons, or_comm, or_assoc]
    · simp only [List.mem_cons, ih]
      tauto

lemma ltLex_trans (sims : List ℚ) {a b c : Nat}
    (h1 : ltLex sims a b) (h2 : ltLex sims b c) : ltLex sims a c := by
  rcases h1 with h1 | ⟨e1, l1⟩
  · rcases h2 with h2 | ⟨e2, _⟩
    · exact Or.inl (lt_trans h1 h2)
    · exact Or.inl (e2 ▸ h1)
  · rcases h2 with h2 | ⟨e2, l2⟩
    · exact Or.inl (e1 ▸ h2)
    · exact Or.inr ⟨e1.trans e2, lt_trans l1 l2⟩

lemma insertAsc_pairwise (sims : List ℚ) (i : Nat) :
    ∀ l : List Nat, l.Pairwise (ltLex sims) → (∀ j ∈ l, j < i) →
      (insertAsc sims i l).Pairwise (ltLex sims) := by
  intro l
  induction l with
  | nil => intro _ _; exact List.pairwise_singleton _ _
  | cons j rest ih =>
    intro hp hlt
    have hpj := (List.pairwise_cons.mp hp).1
    have hpr := (List.pairwise_cons.mp hp).2
    unfold insertAsc
    split_ifs with h
    · refine List.pairwise_cons.mpr ⟨?_, hp⟩
      intro x hx
      rcases List.mem_cons.mp hx with rfl | hx2
      · exact Or.inl h
      · exact ltLex_trans sims (Or.inl h) (hpj x hx2)
    · refine List.pairwise_cons.mpr ⟨?_, ?_⟩
      · intro x hx
        rcases (insertAsc_mem sims i rest x).mp hx with rfl | hx2
        · rcases lt_or_eq_of_le (le_of_not_lt h) with hlt2 | heq
          · exact Or.inl hlt2
          · exact Or.inr ⟨heq, hlt j (List.mem_cons_self j rest)⟩
        · exact hpj x hx2
      · exact ih hpr (fun k hk => hlt k (List.mem_cons_of_mem j hk))

lemma argsortAsc_spec (sims : List ℚ) :
    ∀ n : Nat,
      ((List.range n).foldl (fun acc i => insertAsc sims i acc) []).Pairwise (ltLex sims)
      ∧ (∀ j ∈ (List.range n).foldl (fun acc i => insertAsc sims i acc) [], j < n)
      ∧ ((List.range n).foldl (fun acc i => insertAsc sims i acc) []).length = n := by
  intro n
  induction n with
  | zero => exact ⟨List.Pairwise.nil, by simp, rfl⟩
  | succ n ih =>
    rw [List.range_succ, List.foldl_append, List.foldl_cons, List.foldl_nil]
    refine ⟨insertAsc_pairwise sims n _ ih.1 ih.2.1, ?_, ?_⟩
    · intro j hj
      rcases (insertAsc_mem sims n _ j).mp hj with rfl | hj2
      · exact Nat.lt_succ_self _
      · exact Nat.lt_succ_of_lt (ih.2.1 j hj2)
    · rw [insertAsc_length, ih.2.2]

lemma argsortAsc_pairwise (sims : List ℚ) :
    (argsortAsc sims).Pairwise (ltLex sims) :=
  (argsortAsc_spec sims sims.length).1

lemma argsortAsc_length (sims : List ℚ) :
    (argsortAsc sims).length = sims.length :=
  (argsortAsc_spec sims sims.length).2.2

lemma argsortAsc_mem_lt (sims : List ℚ) :
    ∀ j ∈ argsortAsc sims, j < sims.length :=
  (argsortAsc_spec sims sims.length).2.1

lemma argsortAsc_nil : argsortAsc ([] : List ℚ) = [] := rfl

/-- Reduction of match_bullets_to_jd on the scored path. -/
lemma match_scored_eq (embedSim : String → String → ℚ) (bullets : List Bullet)
    (jd : JdAnalysis) (n : Nat) (hn : n ≠ 0) (domain : String)
    (hdom : resolve_domain jd = Except.ok domain)
    (hq : pyStripChars (queryTextOf (resolve_hard_skills jd) domain) [':', ' '] ≠ "") :
    match_bullets_to_jd embedSim bullets jd (some n)
      = (match (((argsortAsc (bullets.map (fun b => embedSim b.text
              (queryTextOf (resolve_hard_skills jd) domain)))).reverse.take n).map
            (fun idx => (⟨bullets.getD idx ⟨"", "", "", ""⟩,
              some (simVal (bullets.map (fun b => embedSim b.text
                (queryTextOf (resolve_hard_skills jd) domain))) idx)⟩ :
                ScoredBullet))).getLast? with
         | none => Except.error "IndexError: results is empty"
         | some _ => Except.ok
            ((((argsortAsc (bullets.map (fun b => embedSim b.text
              (queryTextOf (resolve_hard_skills jd) domain)))).reverse.take n).map
            (fun idx => (⟨bullets.getD idx ⟨"", "", "", ""⟩,
              some (simVal (bullets.map (fun b => embedSim b.text
                (queryTextOf (resolve_hard_skills jd) domain))) idx)⟩ :
                ScoredBullet))))) := by
  unfold match_bullets_to_jd
  rw [hdom]
  dsimp only
  rw [if_neg hn, if_neg hq]

/-- The scored path returns Ok when the bullets list is non-empty. -/
lemma match_scored_ok (embedSim : String → String → ℚ) (bullets : List Bullet)
    (jd : JdAnalysis) (n : Nat) (hn : n ≠ 0) (domain : String)
    (hdom : resolve_domain jd = Except.ok domain)
    (hq : pyStripChars (queryTextOf (resolve_hard_skills jd) domain) [':', ' '] ≠ "")
    (hb : bullets ≠ []) :
    match_bullets_to_jd embedSim bullets jd (some n)
      = Except.ok
          (((argsortAsc (bullets.map (fun b => embedSim b.text
              (queryTextOf (resolve_hard_skills jd) domain)))).reverse.take n).map
            (fun idx => (⟨bullets.getD idx ⟨"", "", "", ""⟩,
              some (simVal (bullets.map (fun b => embedSim b.text
                (queryTextOf (resolve_hard_skills jd) domain))) idx)⟩ :
                ScoredBullet))) := by
  rw [match_scored_eq embedSim bullets jd n hn domain hdom hq]
  have hlenpos : 0 < (((argsortAsc (bullets.map (fun b => embedSim b.text
      (queryTextOf (resolve_hard_skills jd) domain)))).reverse.take n).map
        (fun idx => (⟨bullets.getD idx ⟨"", "", "", ""⟩,
          some (simVal (bullets.map (fun b => embedSim b.text
            (queryTextOf (resolve_hard_skills jd) domain))) idx)⟩ :
            ScoredBullet))).length := by
    rw [List.length_map, List.length_take, List.length_reverse, argsortAsc_length,
        List.length_map]
    exact Nat.lt_min.mpr ⟨Nat.pos_of_ne_zero hn, List.length_pos.mpr hb⟩
  have hne := List.ne_nil_of_length_pos hlenpos
  rcases Option.isSome_iff_exists.mp (List.getLast?_isSome.mpr hne) with ⟨r, hr⟩
  rw [hr]

/-! ## Claim C5 — graceful degradation on empty signal -/

/-- C5: when every skill alias resolves empty and the domain resolves
empty, match returns exactly the first top_n bullets in their original
order, none carrying a similarity score, and does not raise. -/
theorem match_degraded (embedSim : String → String → ℚ) (bullets : List Bullet)
    (jd : JdAnalysis) (n : Nat) (hn : n ≠ 0) (hb : n ≤ bullets.length)
    (hsk : resolve_hard_skills jd = [])
    (hdom : resolve_domain jd = Except.ok "") :
    match_bullets_to_jd embedSim bullets jd (some n)
        = Except.ok ((bullets.take n).map (fun b => (⟨b, none⟩ : ScoredBullet)))
      ∧ ((bullets.take n).map (fun b => (⟨b, none⟩ : ScoredBullet))).length = n := by
  constructor
  · unfold match_bullets_to_jd
    rw [hdom]
    dsimp only
    rw [if_neg hn, hsk]
    rw [if_pos (by decide : pyStripChars (queryTextOf [] "") [':', ' '] = "")]
  · rw [List.length_map, List.length_take]
    exact Nat.min_eq_left hb

/-- Witness for C5 on a two-bullet profile and an all-absent requirement
record. -/
theorem match_degraded_witness :
    (1 : Nat) ≠ 0 ∧ 1 ≤ ([bW1, bW2] : List Bullet).length
      ∧ resolve_hard_skills emptyAnalysis = []
      ∧ resolve_domain emptyAnalysis = Except.ok ""
      ∧ (match_bullets_to_jd (fun _ _ => 0) [bW1, bW2] emptyAnalysis (some 1)
            = Except.ok ((([bW1, bW2] : List Bullet).take 1).map
                (fun b => (⟨b, none⟩ : ScoredBullet)))
        ∧ ((([bW1, bW2] : List Bullet).take 1).map
            (fun b => (⟨b, none⟩ : ScoredBullet))).length = 1) :=
  ⟨by decide, by decide, by decide, by decide,
    match_degraded (fun _ _ => 0) [bW1, bW2] emptyAnalysis 1
      (by decide) (by decide) (by decide) (by decide)⟩

/-! ## Claim C10 — non-empty query requires non-empty bullets -/

/-- C10: with a usable (non-empty) query text, match returns exactly
min(top_n, #bullets) scored results on a non-empty bullets list, but
raises — the summary log indexes results[-1] of an empty list — on the
empty bullets list instead of returning an empty ranking. -/
theorem match_query_requires_bullets (embedSim : String → String → ℚ)
    (bullets : List Bullet) (jd : JdAnalysis) (n : Nat) (hn : n ≠ 0)
    (domain : String) (hdom : resolve_domain jd = Except.ok domain)
    (hq : pyStripChars (queryTextOf (resolve_hard_skills jd) domain) [':', ' '] ≠ "") :
    (bullets ≠ [] →
      ∃ res : List ScoredBullet,
        match_bullets_to_jd embedSim bullets jd (some n) = Except.ok res
          ∧ res.length = min n bullets.length
          ∧ ∀ r ∈ res, r.similarity ≠ none)
    ∧ match_bullets_to_jd embedSim [] jd (some n)
        = Except.error "IndexError: results is empty" := by
  constructor
  · intro hb
    refine ⟨_, match_scored_ok embedSim bullets jd n hn domain hdom hq hb, ?_, ?_⟩
    · rw [List.length_map, List.length_take, List.length_reverse,
          argsortAsc_length, List.length_map]
    · intro r hr
      rcases List.mem_map.mp hr with ⟨idx, _, rfl⟩
      exact fun h => Option.noConfusion h
  · rw [match_scored_eq embedSim [] jd n hn domain hdom hq]
    simp [argsortAsc_nil]

/-- Witness for C10 at a concrete requirement record with skills and a
domain, once with two bullets and once with none. -/
theorem match_query_requires_bullets_witness :
    ((6 : Nat) ≠ 0
      ∧ resolve_domain jdC3 = Except.ok "software"
      ∧ pyStripChars (queryTextOf (resolve_hard_skills jdC3) "software")
          [':', ' '] ≠ "")
    ∧ ((([bW1, bW2] : List Bullet) ≠ [] →
        ∃ res : List ScoredBullet,
          match_bullets_to_jd (fun _ _ => 0) [bW1, bW2] jdC3 (some 6) = Except.ok res
            ∧ res.length = min 6 ([bW1, bW2] : List Bullet).length
            ∧ ∀ r ∈ res, r.similarity ≠ none)
      ∧ match_bullets_to_jd (fun _ _ => 0) [] jdC3 (some 6)
          = Except.error "IndexError: results is empty") :=
  ⟨⟨by decide, by decide, by decide⟩,
    match_query_requires_bullets (fun _ _ => 0) [bW1, bW2] jdC3 6
      (by decide) "software" (by decide) (by decide)⟩

/-! ## Claim C3 — ranking order of the scored path -/

/-- C3 counterexample: two distinct bullets with equal similarity come
back in REVERSED original order, refuting the claimed stable-original
tie order.  At two elements NumPy's default argsort is literally an
insertion sort, so the model's output is the program's output here:
ascending argsort [0, 1], reversed to [1, 0]. -/
theorem match_tie_counterexample :
    match_bullets_to_jd (fun _ _ => 0) [bW1, bW2] jdC3 none
        = Except.ok [⟨bW2, some 0⟩, ⟨bW1, some 0⟩]
      ∧ match_bullets_to_jd (fun _ _ => 0) [bW1, bW2] jdC3 none
          ≠ Except.ok [⟨bW1, some 0⟩, ⟨bW2, some 0⟩]
      ∧ bW1 ≠ bW2 := by
  refine ⟨by decide, by decide, by decide⟩

/-- C3 amended: with a usable query and a non-empty bullets list, match
returns min(top_n, #bullets) results, each a bullet drawn from the input
carrying its similarity score, ordered by non-increasing similarity.  No
tie order among equal scores is asserted: reversing ANY ascending
argsort yields these properties, so they are independent of the
implementation-defined tie behaviour of np.argsort (which the
counterexample shows is not the original input order). -/
theorem match_ranked_desc (embedSim : String → String → ℚ)
    (bullets : List Bullet) (jd : JdAnalysis) (n : Nat) (hn : n ≠ 0)
    (domain : String) (hdom : resolve_domain jd = Except.ok domain)
    (hq : pyStripChars (queryTextOf (resolve_hard_skills jd) domain) [':', ' '] ≠ "")
    (hb : bullets ≠ []) :
    ∃ res : List ScoredBullet,
      match_bullets_to_jd embedSim bullets jd (some n) = Except.ok res
        ∧ res.length = min n bullets.length
        ∧ (∀ r ∈ res, r.similarity ≠ none ∧ r.bullet ∈ bullets)
        ∧ res.Pairwise (fun r1 r2 =>
            r2.similarity.getD 0 ≤ r1.similarity.getD 0) := by
  refine ⟨_, match_scored_ok embedSim bullets jd n hn domain hdom hq hb, ?_, ?_, ?_⟩
  · rw [List.length_map, List.length_take, List.length_reverse,
        argsortAsc_length, List.length_map]
  · intro r hr
    rcases List.mem_map.mp hr with ⟨idx, hidx, rfl⟩
    refine ⟨fun h => Option.noConfusion h, ?_⟩
    have hmem : idx ∈ argsortAsc (bullets.map (fun b => embedSim b.text
        (queryTextOf (resolve_hard_skills jd) domain))) :=
      List.mem_reverse.mp (List.mem_of_mem_take hidx)
    have hlt := argsortAsc_mem_lt (bullets.map (fun b => embedSim b.text
        (queryTextOf (resolve_hard_skills jd) domain))) idx hmem
    rw [List.length_map] at hlt
    show (bullets.getD idx ⟨"", "", "", ""⟩) ∈ bullets
    rw [List.getD_eq_getElem _ _ hlt]
    exact List.getElem_mem hlt
  · rw [List.pairwise_map]
    have hrev := List.pairwise_reverse.mpr
      (argsortAsc_pairwise (bullets.map (fun b => embedSim b.text
        (queryTextOf (resolve_hard_skills jd) domain))))
    have htake := List.Pairwise.sublist (List.take_sublist n _) hrev
    refine htake.imp ?_
    intro i j hij
    show simVal _ j ≤ simVal _ i
    rcases hij with h | ⟨he, _⟩
    · exact le_of_lt h
    · exact le_of_eq he

/-- Witness for C3 (amended) on two bullets with distinct similarities. -/
theorem match_ranked_desc_witness :
    ((2 : Nat) ≠ 0
      ∧ resolve_domain jdC3 = Except.ok "software"
      ∧ pyStripChars (queryTextOf (resolve_hard_skills jdC3) "software")
          [':', ' '] ≠ ""
      ∧ ([bW1, bW2] : List Bullet) ≠ [])
    ∧ (∃ res : List ScoredBullet,
        match_bullets_to_jd
            (fun t _ => if t = "Developed FastAPI backend services" then (1 : ℚ) else 0)
            [bW1, bW2] jdC3 (some 2)
          = Except.ok res
        ∧ res.length = min 2 ([bW1, bW2] : List Bullet).length
        ∧ (∀ r ∈ res, r.similarity ≠ none ∧ r.bullet ∈ ([bW1, bW2] : List Bullet))
        ∧ res.Pairwise (fun r1 r2 =>
            r2.similarity.getD 0 ≤ r1.similarity.getD 0)) :=
  ⟨⟨by decide, by decide, by decide, by decide⟩,
    match_ranked_desc
      (fun t _ => if t = "Developed FastAPI backend services" then 1 else 0)
      [bW1, bW2] jdC3 2 (by decide) "software" (by decide) (by decide) (by decide)⟩

/-! ## Claim C1 — failed analysis keeps the posting retryable -/

lemma tAnalyze_id (o : Job → Option JdAnalysis) (sj x : Job) :
    (tAnalyze o sj x).id = x.id := by
  unfold tAnalyze
  cases analyze_single_jd (o sj) sj.jd_text <;> rfl

/-- C1: a posting with status 'new' and relevance 'relevant' whose
analysis fails — too-short description, failed external call, or
unparseable response, all of which make analyze_single_jd return none —
keeps status 'new' after the analyze stage, so it stays selectable by a
later run. -/
theorem analyze_failure_leaves_new (o : Job → Option JdAnalysis) (initOk : Bool)
    (db : DB) (hnd : (db.jobs.map Job.id).Nodup)
    (i : Nat) (hi : i < db.jobs.length)
    (hstatus : (db.jobs.getD i dummyJob).status = Status.new)
    (hrel : (db.jobs.getD i dummyJob).relevance = some Relevance.relevant)
    (hfail : analyze_single_jd (o (db.jobs.getD i dummyJob))
        (db.jobs.getD i dummyJob).jd_text = none) :
    ((analyze_pending_jobs o initOk db).1.jobs.getD i dummyJob).status
      = Status.new := by
  cases initOk with
  | false => rw [analyze_pending_jobs_init_fail]; exact hstatus
  | true =>
    rw [analyze_pending_jobs_db]
    have hj : db.jobs.getD i dummyJob = db.jobs[i] := List.getD_eq_getElem _ _ hi
    have hmem : db.jobs.getD i dummyJob ∈ db.jobs := by
      rw [hj]; exact List.getElem_mem hi
    have hmap : ((⟨db.jobs.map (applyChain (tAnalyze o)
        ((get_jobs_by_status db Status.new).filter
          (fun j => j.relevance = some Relevance.relevant))), db.nextId⟩ : DB).jobs.getD
          i dummyJob)
        = applyChain (tAnalyze o)
            ((get_jobs_by_status db Status.new).filter
              (fun j => j.relevance = some Relevance.relevant))
            (db.jobs.getD i dummyJob) := by
      show (db.jobs.map _).getD i dummyJob = _
      rw [List.getD_eq_getElem _ _ (by rw [List.length_map]; exact hi),
          List.getElem_map, hj]
    rw [hmap]
    have hsnap : db.jobs.getD i dummyJob
        ∈ (get_jobs_by_status db Status.new).filter
            (fun j => j.relevance = some Relevance.relevant) := by
      refine List.mem_filter.mpr ⟨?_, by rw [hrel]; decide⟩
      exact List.mem_filter.mpr ⟨hmem, by rw [hstatus]; decide⟩
    have hsub : ((get_jobs_by_status db Status.new).filter
        (fun j => j.relevance = some Relevance.relevant)).Sublist db.jobs :=
      ((List.filter_sublist _).trans (List.filter_sublist _))
    have hndsnap : (((get_jobs_by_status db Status.new).filter
        (fun j => j.relevance = some Relevance.relevant)).map Job.id).Nodup :=
      hnd.sublist (hsub.map Job.id)
    rw [applyChain_single (tAnalyze o) (tAnalyze_id o) _ hndsnap
        (db.jobs.getD i dummyJob) (db.jobs.getD i dummyJob) hsnap rfl]
    unfold tAnalyze
    rw [hfail]
    exact hstatus

/-- Witness for C1: one new relevant posting with a too-short description
and a successful oracle — the local length guard alone forces the retry. -/
theorem analyze_failure_leaves_new_witness :
    ((dbC1.jobs.map Job.id).Nodup
      ∧ 0 < dbC1.jobs.length
      ∧ (dbC1.jobs.getD 0 dummyJob).status = Status.new
      ∧ (dbC1.jobs.getD 0 dummyJob).relevance = some Relevance.relevant
      ∧ analyze_single_jd ((fun _ => some emptyAnalysis) (dbC1.jobs.getD 0 dummyJob))
          (dbC1.jobs.getD 0 dummyJob).jd_text = none)
    ∧ ((analyze_pending_jobs (fun _ => some emptyAnalysis) true dbC1).1.jobs.getD 0
        dummyJob).status = Status.new :=
  ⟨⟨by decide, by decide, by decide, by decide, by decide⟩,
    analyze_failure_leaves_new (fun _ => some emptyAnalysis) true dbC1
      (by decide) 0 (by decide) (by decide) (by decide) (by decide)⟩

/-! ## Claim C9 — filter idempotence -/

/-- A filter run over a store with nothing unscored is a no-op. -/
lemma filter_jobs_no_unscored (tooOld : Job → Bool) (llm : Job → Option LlmVerdict)
    (initOk : Bool) (db : DB) (h : get_unscored_jobs db = []) :
    filter_jobs tooOld llm initOk db = (db, zeroCounts) := by
  dsimp only [filter_jobs]
  rw [h]
  rfl

lemma tFilter_sets_relevance (tooOld : Job → Bool) (llm : Job → Option LlmVerdict)
    (sj x : Job) :
    (tFilter tooOld llm sj x).relevance = some Relevance.relevant
      ∨ (tFilter tooOld llm sj x).relevance = some Relevance.irrelevant := by
  unfold tFilter relevanceUpdate
  split_ifs <;> simp

/-- C9: a completed filter run scores every selected posting, so running
the filter again immediately (with any oracles and any client outcome)
selects nothing: the second run returns zero counts and leaves the store
exactly as the first run left it. -/
theorem filter_idempotent (tooOld tooOld2 : Job → Bool)
    (llm llm2 : Job → Option LlmVerdict) (initOk2 : Bool) (db : DB) :
    filter_jobs tooOld2 llm2 initOk2 (filter_jobs tooOld llm true db).1
      = ((filter_jobs tooOld llm true db).1, zeroCounts) := by
  have hemp : get_unscored_jobs (filter_jobs tooOld llm true db).1 = [] := by
    rw [filter_jobs_db]
    show List.filter isUnscored (db.jobs.map _) = []
    rw [List.filter_eq_nil_iff]
    intro row hrow
    rcases List.mem_map.mp hrow with ⟨j, hjmem, rfl⟩
    by_cases hex : ∃ sj ∈ get_unscored_jobs db, sj.id = j.id
    · have hP := applyChain_establishes (tFilter tooOld llm)
        (fun x => x.relevance = some Relevance.relevant
          ∨ x.relevance = some Relevance.irrelevant)
        (tFilter_sets_relevance tooOld llm) (get_unscored_jobs db) j hex
      rcases hP with h | h <;> simp [isUnscored, h]
    · rw [applyChain_not_mem _ _ _ (fun sj hs he => hex ⟨sj, hs, he⟩)]
      intro huns
      exact hex ⟨j, List.mem_filter.mpr ⟨hjmem, huns⟩, rfl⟩
  exact filter_jobs_no_unscored tooOld2 llm2 initOk2 _ hemp

/-! ## Claim C2 — status monotonicity machinery -/

lemma mono_refl (db : DB) : Mono db db :=
  ⟨le_refl _, fun _ => le_refl _⟩

lemma mono_trans {a b c : DB} (h1 : Mono a b) (h2 : Mono b c) : Mono a c :=
  ⟨le_trans h1.1 h2.1, fun i => le_trans (h1.2 i) (h2.2 i)⟩

lemma inv_empty : Inv DB.empty := by
  refine ⟨List.nodup_nil, ?_, ?_⟩ <;> intro j hj <;> exact absurd hj (List.not_mem_nil j)

lemma tFilter_id (tooOld : Job → Bool) (llm : Job → Option LlmVerdict)
    (sj x : Job) : (tFilter tooOld llm sj x).id = x.id := by
  unfold tFilter relevanceUpdate
  split_ifs <;> rfl

lemma tFilter_status (tooOld : Job → Bool) (llm : Job → Option LlmVerdict)
    (sj x : Job) :
    (tFilter tooOld llm sj x).status = Status.filtered
      ∨ (tFilter tooOld llm sj x).status = x.status := by
  unfold tFilter relevanceUpdate
  split_ifs <;> simp

lemma tGenerate_id (r c : Job → Bool) (cl : Option Unit) (sj x : Job) :
    (tGenerate r c cl sj x).id = x.id := by
  unfold tGenerate
  cases generate_single_resume (r sj) (c sj) sj cl <;> rfl

lemma tGenerate_shape (r c : Job → Bool) (cl : Option Unit) (sj x : Job) :
    ((tGenerate r c cl sj x).status = Status.generated
        ∧ (tGenerate r c cl sj x).relevance = x.relevance)
      ∨ tGenerate r c cl sj x = x := by
  unfold tGenerate resumeUpdate
  cases generate_single_resume (r sj) (c sj) sj cl
  · exact Or.inr rfl
  · exact Or.inl ⟨rfl, rfl⟩

lemma tAnalyze_shape (o : Job → Option JdAnalysis) (sj x : Job) :
    ((tAnalyze o sj x).status = Status.analyzed
        ∧ (tAnalyze o sj x).relevance = x.relevance)
      ∨ tAnalyze o sj x = x := by
  unfold tAnalyze analysisUpdate
  cases analyze_single_jd (o sj) sj.jd_text
  · exact Or.inr rfl
  · exact Or.inl ⟨rfl, rfl⟩

lemma tBackfill_id (f : Job → Option String) (sj x : Job) :
    (tBackfill f sj x).id = x.id := by
  unfold tBackfill jdUpdate
  split_ifs with h
  · rfl
  · cases f sj with
    | some jd => dsimp only; split_ifs <;> rfl
    | none => rfl

lemma tBackfill_status (f : Job → Option String) (sj x : Job) :
    (tBackfill f sj x).status = x.status := by
  unfold tBackfill jdUpdate
  split_ifs with h
  · rfl
  · cases f sj with
    | some jd => dsimp only; split_ifs <;> rfl
    | none => rfl

lemma tBackfill_relevance (f : Job → Option String) (sj x : Job) :
    (tBackfill f sj x).relevance = x.relevance := by
  unfold tBackfill jdUpdate
  split_ifs with h
  · rfl
  · cases f sj with
    | some jd => dsimp only; split_ifs <;> rfl
    | none => rfl

lemma applyChain_field {β : Type} (f : Job → β) (t : Job → Job → Job)
    (hf : ∀ sj x, f (t sj x) = f x) :
    ∀ (snap : List Job) (j : Job), f (applyChain t snap j) = f j := by
  intro snap
  induction snap with
  | nil => intro j; rfl
  | cons a snap ih =>
    intro j
    show f (applyChain t snap (applyStep t j a)) = f j
    rw [ih]
    unfold applyStep
    split_ifs
    · exact hf a j
    · rfl

/-- With unique ids, the chain built from a filtered snapshot of the
store acts on a stored row exactly as its own transform (or not at all). -/
lemma applyChain_filter_self (t : Job → Job → Job) (p : Job → Bool) (db : DB)
    (hnd : (db.jobs.map Job.id).Nodup)
    (hid : ∀ sj x, (t sj x).id = x.id) (j : Job) (hj : j ∈ db.jobs) :
    applyChain t (db.jobs.filter p) j = if p j = true then t j j else j := by
  by_cases hp : p j = true
  · rw [if_pos hp]
    have hnds : ((db.jobs.filter p).map Job.id).Nodup :=
      hnd.sublist ((List.filter_sublist _).map Job.id)
    exact applyChain_single t hid _ hnds j j (List.mem_filter.mpr ⟨hj, hp⟩) rfl
  · rw [if_neg hp]
    apply applyChain_not_mem
    intro sj hs he
    have hsj : sj ∈ db.jobs := (List.mem_filter.mp hs).1
    have heq : sj = j := List.inj_on_of_nodup_map hnd hsj hj he
    exact hp (heq ▸ (List.mem_filter.mp hs).2)

lemma statusRank_le_one (s : Status) (h : s ≠ Status.generated) :
    statusRank s ≤ 1 := by
  cases s <;> first | exact Nat.zero_le _ | exact le_refl _ | exact absurd rfl h

/-- Inv and Mono are preserved by any stage that maps the store through a
snapshot chain, given per-row facts about the transform on selected rows. -/
lemma stage_inv_mono (t : Job → Job → Job) (p : Job → Bool) (db : DB)
    (hInv : Inv db)
    (hid : ∀ sj x, (t sj x).id = x.id)
    (hrank : ∀ j ∈ db.jobs, p j = true →
        statusRank j.status ≤ statusRank (t j j).status)
    (hrel : ∀ j ∈ db.jobs, p j = true →
        ((t j j).status = Status.analyzed ∨ (t j j).status = Status.generated) →
          (t j j).relevance = some Relevance.relevant) :
    Inv ⟨db.jobs.map (applyChain t (db.jobs.filter p)), db.nextId⟩
      ∧ Mono db ⟨db.jobs.map (applyChain t (db.jobs.filter p)), db.nextId⟩ := by
  have hrow : ∀ j ∈ db.jobs,
      applyChain t (db.jobs.filter p) j = if p j = true then t j j else j :=
    fun j hj => applyChain_filter_self t p db hInv.1 hid j hj
  have hchid : ∀ j, (applyChain t (db.jobs.filter p) j).id = j.id :=
    fun j => applyChain_field Job.id t hid _ j
  constructor
  · refine ⟨?_, ?_, ?_⟩
    · show ((db.jobs.map _).map Job.id).Nodup
      rw [List.map_map]
      have : (Job.id ∘ applyChain t (db.jobs.filter p)) = Job.id := funext hchid
      rw [this]
      exact hInv.1
    · intro r hr
      rcases List.mem_map.mp hr with ⟨j, hjm, rfl⟩
      rw [hchid j]
      exact hInv.2.1 j hjm
    · intro r hr hst
      rcases List.mem_map.mp hr with ⟨j, hjm, rfl⟩
      rw [hrow j hjm] at hst ⊢
      by_cases hp : p j = true
      · rw [if_pos hp] at hst ⊢
        exact hrel j hjm hp hst
      · rw [if_neg hp] at hst ⊢
        exact hInv.2.2 j hjm hst
  · constructor
    · rw [List.length_map]
    · intro i
      by_cases hi : i < db.jobs.length
      · have hg : (db.jobs.map (applyChain t (db.jobs.filter p))).getD i dummyJob
            = applyChain t (db.jobs.filter p) (db.jobs.getD i dummyJob) := by
          rw [List.getD_eq_getElem _ _ (by rw [List.length_map]; exact hi),
              List.getElem_map, List.getD_eq_getElem _ _ hi]
        rw [hg]
        have hjm : db.jobs.getD i dummyJob ∈ db.jobs := by
          rw [List.getD_eq_getElem _ _ hi]; exact List.getElem_mem hi
        rw [hrow _ hjm]
        by_cases hp : p (db.jobs.getD i dummyJob) = true
        · rw [if_pos hp]
          exact hrank _ hjm hp
        · rw [if_neg hp]
      · rw [List.getD_eq_default _ _ (le_of_not_lt hi)]
        exact Nat.zero_le _

lemma tFilter_shape (tooOld : Job → Bool) (llm : Job → Option LlmVerdict)
    (sj x : Job) :
    (tFilter tooOld llm sj x).status = Status.filtered
      ∨ ((tFilter tooOld llm sj x).status = x.status
          ∧ (tFilter tooOld llm sj x).relevance = some Relevance.relevant) := by
  unfold tFilter relevanceUpdate
  split_ifs <;> simp

lemma insert_inv_mono (db : DB) (jd : JobData) (hInv : Inv db) :
    Inv (insert_job db jd).1 ∧ Mono db (insert_job db jd).1 := by
  unfold insert_job
  split_ifs with h
  · exact ⟨hInv, mono_refl db⟩
  · dsimp only
    constructor
    · refine ⟨?_, ?_, ?_⟩
      · rw [List.map_append, List.nodup_append]
        refine ⟨hInv.1, List.nodup_singleton _, ?_⟩
        intro a ha hb
        rcases List.mem_map.mp ha with ⟨j, hjm, rfl⟩
        have hlt := hInv.2.1 j hjm
        have : j.id = db.nextId := by
          simpa using hb
        rw [this] at hlt
        exact absurd hlt (lt_irrefl _)
      · intro j hj
        rcases List.mem_append.mp hj with h1 | h1
        · exact Nat.lt_succ_of_lt (hInv.2.1 j h1)
        · rw [List.mem_singleton.mp h1]
          exact Nat.lt_succ_self _
      · intro j hj hst
        rcases List.mem_append.mp hj with h1 | h1
        · exact hInv.2.2 j h1 hst
        · rw [List.mem_singleton.mp h1] at hst
          rcases hst with h2 | h2 <;> exact Status.noConfusion h2
    · constructor
      · rw [List.length_append]
        exact Nat.le_add_right _ _
      · intro i
        by_cases hi : i < db.jobs.length
        · rw [List.getD_append _ _ _ _ hi]
        · rw [List.getD_eq_default _ _ (le_of_not_lt hi)]
          exact Nat.zero_le _

lemma scrapeInsert_fst (acc : DB × Nat) (jd : JobData) :
    (scrapeInsert acc jd).1
      = if jd.title = "" || jd.company = "" then acc.1
        else (insert_job acc.1 jd).1 := by
  unfold scrapeInsert
  split_ifs with h
  · rfl
  · dsimp only
    split_ifs <;> rfl

lemma scrape_inv_mono (incoming : List JobData) (db : DB) (hInv : Inv db) :
    Inv (scrape_batch incoming db).1 ∧ Mono db (scrape_batch incoming db).1 := by
  have hfst : (scrape_batch incoming db).1
      = incoming.foldl
          (fun d jd => if jd.title = "" || jd.company = "" then d
            else (insert_job d jd).1) db := by
    unfold scrape_batch
    exact foldl_fst scrapeInsert _ scrapeInsert_fst incoming (db, 0)
  rw [hfst]
  clear hfst
  induction incoming generalizing db with
  | nil => exact ⟨hInv, mono_refl db⟩
  | cons jd rest ih =>
    rw [List.foldl_cons]
    by_cases h : (jd.title = "" || jd.company = "") = true
    · rw [if_pos h]
      exact ih db hInv
    · rw [if_neg h]
      have h1 := insert_inv_mono db jd hInv
      have h2 := ih _ h1.1
      exact ⟨h2.1, mono_trans h1.2 h2.2⟩

lemma applyOp_inv_mono (op : Op) (db : DB) (hInv : Inv db) :
    Inv (applyOp db op) ∧ Mono db (applyOp db op) := by
  cases op with
  | scrape incoming => exact scrape_inv_mono incoming db hInv
  | filter tooOld llm initOk =>
    cases initOk with
    | false =>
      show Inv (filter_jobs tooOld llm false db).1
        ∧ Mono db (filter_jobs tooOld llm false db).1
      rw [filter_jobs_init_fail]
      exact ⟨hInv, mono_refl db⟩
    | true =>
      show Inv (filter_jobs tooOld llm true db).1
        ∧ Mono db (filter_jobs tooOld llm true db).1
      rw [filter_jobs_db]
      refine stage_inv_mono (tFilter tooOld llm) isUnscored db hInv
        (tFilter_id tooOld llm) ?_ ?_
      · intro j hjm hp
        rcases tFilter_status tooOld llm j j with hs | hs
        · rw [hs]
          refine statusRank_le_one j.status ?_
          intro hg
          have hrelv := hInv.2.2 j hjm (Or.inr hg)
          unfold isUnscored at hp
          rw [hrelv] at hp
          simp at hp
        · rw [hs]
      · intro j hjm hp hst
        rcases tFilter_shape tooOld llm j j with hs | ⟨_, hr⟩
        · rw [hs] at hst
          rcases hst with h2 | h2 <;> exact Status.noConfusion h2
        · exact hr
  | backfill f =>
    show Inv (backfill_linkedin_jd f db).1 ∧ Mono db (backfill_linkedin_jd f db).1
    rw [backfill_linkedin_jd_db]
    refine stage_inv_mono (tBackfill f) isShortLinkedIn db hInv (tBackfill_id f) ?_ ?_
    · intro j _ _
      rw [tBackfill_status]
    · intro j hjm _ hst
      rw [tBackfill_relevance]
      rw [tBackfill_status] at hst
      exact hInv.2.2 j hjm hst
  | analyze o initOk =>
    cases initOk with
    | false =>
      show Inv (analyze_pending_jobs o false db).1
        ∧ Mono db (analyze_pending_jobs o false db).1
      rw [analyze_pending_jobs_init_fail]
      exact ⟨hInv, mono_refl db⟩
    | true =>
      show Inv (analyze_pending_jobs o true db).1
        ∧ Mono db (analyze_pending_jobs o true db).1
      rw [analyze_pending_jobs_db]
      have hsnap : (get_jobs_by_status db Status.new).filter
          (fun j => j.relevance = some Relevance.relevant)
          = db.jobs.filter (fun j =>
              decide (j.relevance = some Relevance.relevant)
                && decide (j.status = Status.new)) := by
        unfold get_jobs_by_status
        rw [List.filter_filter]
      rw [hsnap]
      refine stage_inv_mono (tAnalyze o) _ db hInv (tAnalyze_id o) ?_ ?_
      · intro j hjm hp
        have hjs : j.status = Status.new :=
          of_decide_eq_true (Bool.and_eq_true_iff.mp hp).2
        rw [hjs]
        exact Nat.zero_le _
      · intro j hjm hp hst
        have hjr : j.relevance = some Relevance.relevant :=
          of_decide_eq_true (Bool.and_eq_true_iff.mp hp).1
        rcases tAnalyze_shape o j j with ⟨_, hr⟩ | heq
        · rw [hr]
          exact hjr
        · rw [heq]
          exact hjr
  | generate r c initOk =>
    show Inv (generate_resumes r c initOk db).1
      ∧ Mono db (generate_resumes r c initOk db).1
    rw [generate_resumes_db]
    refine stage_inv_mono
      (tGenerate r c (if initOk then some () else none))
      (fun j => decide (j.status = Status.analyzed)) db hInv
      (tGenerate_id r c _) ?_ ?_
    · intro j hjm hp
      have hjs : j.status = Status.analyzed := of_decide_eq_true hp
      rcases tGenerate_shape r c (if initOk then some () else none) j j
        with ⟨hs, _⟩ | heq
      · rw [hjs, hs]
        decide
      · rw [heq]
    · intro j hjm hp hst
      have hjs : j.status = Status.analyzed := of_decide_eq_true hp
      rcases tGenerate_shape r c (if initOk then some () else none) j j
        with ⟨_, hr⟩ | heq
      · rw [hr]
        exact hInv.2.2 j hjm (Or.inl hjs)
      · rw [heq] at hst ⊢
        exact hInv.2.2 j hjm hst

lemma runOps_inv_mono (ops : List Op) :
    ∀ db : DB, Inv db → Inv (runOps ops db) ∧ Mono db (runOps ops db) := by
  induction ops with
  | nil => intro db h; exact ⟨h, mono_refl db⟩
  | cons op ops ih =>
    intro db h
    show Inv (runOps ops (applyOp db op)) ∧ Mono db (runOps ops (applyOp db op))
    have h1 := applyOp_inv_mono op db h
    have h2 := ih _ h1.1
    exact ⟨h2.1, mono_trans h1.2 h2.2⟩

/-- C2: along any pipeline history from the empty store — any sequence of
scrape/filter/backfill/analyze/generate invocations with any oracle
outcomes — each stored posting's status rank never decreases between a
prefix of the history and any extension of it: nothing moves a posting
from analyzed or generated back to new, nor from generated back to
analyzed. -/
theorem status_monotone (pre post : List Op) (i : Nat) :
    statusRank (((runOps pre DB.empty).jobs.getD i dummyJob).status)
      ≤ statusRank (((runOps (pre ++ post) DB.empty).jobs.getD i dummyJob).status) := by
  have h1 := runOps_inv_mono pre DB.empty inv_empty
  have h2 := runOps_inv_mono post (runOps pre DB.empty) h1.1
  have happ : runOps (pre ++ post) DB.empty = runOps post (runOps pre DB.empty) := by
    unfold runOps
    rw [List.foldl_append]
  rw [happ]
  exact h2.2.2 i

end JobSearch
